import Mathlib

/-!
Shallow embedding of the `box_into_inner` crate (src/src/lib.rs).

The crate's single operation moves the contained value out of an owned
heap box without running the value's destructor, while still freeing the
backing allocation.  We model heap effects as an explicit trace of
allocator and destructor events, heap boxes as a record of an allocation
id plus the stored value, and `MaybeUninit<T>` as an optional value so
that the unsafe `assume_init_read` becomes a fallible (`Option`) read.
-/

namespace BoxIntoInner

/-- Observable allocator/destructor events emitted during execution:
`alloc id` is an allocator "malloc" for allocation `id`, `dealloc id` the
matching allocator "free", and `dropT` a run of the contained value's
destructor. -/
inductive Event where
  | alloc : Nat → Event
  | dealloc : Nat → Event
  | dropT : Event
deriving DecidableEq

/-- An owned heap box `Box<T>`: a single-owner allocation (identified by
`alloc`) holding exactly one value of type `T`. -/
structure Box (T : Type) where
  alloc : Nat
  val : T
deriving DecidableEq

/-- `std::mem::MaybeUninit<T>`: a same-layout view of `T` that may or may
not hold an initialized value, and carries no destructor obligation. -/
structure MaybeUninit (T : Type) where
  data : Option T
deriving DecidableEq

/-- `MaybeUninit::assume_init_read`: read the value out by move.  In Rust
this is undefined behaviour when the slot is uninitialized; we model the
read as returning `none` in that case. -/
def MaybeUninit.assume_init_read {T : Type} (m : MaybeUninit T) : Option T :=
  m.data

/-- `mem::transmute::<Box<T>, Box<MaybeUninit<T>>>`: reinterpret the box's
element type as the maybe-uninitialized view of the same layout.  The
bytes already hold a valid `T`, so the view is initialized with it. -/
def transmuteBoxUninit {T : Type} (b : Box T) : Box (MaybeUninit T) :=
  ⟨b.alloc, ⟨some b.val⟩⟩

/-- Dropping a `Box<MaybeUninit<T>>` frees the backing allocation but runs
no destructor for the contents (the view type declares none). -/
def dropBoxUninit {T : Type} (b : Box (MaybeUninit T)) : List Event :=
  [Event.dealloc b.alloc]

/-- Dropping a plain value of type `T` runs its destructor once. -/
def dropValue {T : Type} (_v : T) : List Event :=
  [Event.dropT]

/-- `Box::new`: allocate a fresh heap box (with allocation id `id`)
holding `v`, emitting one allocator "malloc" event. -/
def Box.new {T : Type} (id : Nat) (v : T) : Box T × List Event :=
  (⟨id, v⟩, [Event.alloc id])

/-- `box_into_inner` from src/src/lib.rs: transmute the box to
`Box<MaybeUninit<T>>`, then `assume_init_read` the value out; the
reinterpreted box then drops, freeing the allocation only.  The first
component is the returned value (`none` would mean the undefined-behaviour
path of an uninitialized read), the second the emitted event trace. -/
def box_into_inner {T : Type} (value : Box T) : Option T × List Event :=
  let boxed_uninit := transmuteBoxUninit value
  (boxed_uninit.val.assume_init_read, dropBoxUninit boxed_uninit)

/-- The `IntoInner` trait: a container convertible into its owned inner
value without running the content's destructor. -/
class IntoInner (S : Type) where
  Inner : Type
  into_inner : S → Option Inner × List Event

/-- The sole impl: `IntoInner for Box<T>` with `Inner = T`, delegating to
`box_into_inner`. -/
instance instIntoInnerBox {T : Type} : IntoInner (Box T) where
  Inner := T
  into_inner := box_into_inner

/-- Number of destructor runs of the contained value in a trace. -/
def countDropT (l : List Event) : Nat :=
  l.countP fun e => match e with | Event.dropT => true | _ => false

/-- Number of allocator "malloc" events in a trace. -/
def countAllocEvents (l : List Event) : Nat :=
  l.countP fun e => match e with | Event.alloc _ => true | _ => false

/-- Number of allocator "free" events in a trace. -/
def countDeallocEvents (l : List Event) : Nat :=
  l.countP fun e => match e with | Event.dealloc _ => true | _ => false

/-- One allocate/extract/drop cycle: `Box::new`, `box_into_inner`, then
drop of the returned value, as in the spec's no-leak loop. -/
def extractCycle {T : Type} (id : Nat) (v : T) : List Event :=
  let p := Box.new id v
  let r := box_into_inner p.1
  p.2 ++ r.2 ++ (match r.1 with
    | some w => dropValue w
    | none => [])

/-- The trace of `n` allocate/extract/drop cycles (cycle `i` uses
allocation id `i`). -/
def cyclesTrace {T : Type} (v : T) : Nat → List Event
  | 0 => []
  | n + 1 => cyclesTrace v n ++ extractCycle n v

/-- The box's trivial state machine: either still boxed, or extracted. -/
inductive BoxState (T : Type) where
  | boxed : Box T → BoxState T
  | extracted : T → BoxState T
deriving DecidableEq

/-- The single transition: extraction consumes the boxed state and yields
the extracted state; an extracted value admits no further transition. -/
def stepBox {T : Type} : BoxState T → Option (BoxState T)
  | BoxState.boxed b => (box_into_inner b).1.map BoxState.extracted
  | BoxState.extracted _ => none

/-- C1: value preservation — for every type `T` and value `v`, extracting
`Box::new(v)` returns the value `v` itself; in particular extracting a box
holding "Hello, World!" returns "Hello, World!" and extracting a box
holding [1,2,3,4,5] returns [1,2,3,4,5]. -/
theorem box_into_inner_preserves_value :
    (∀ (T : Type) (id : Nat) (v : T),
      (box_into_inner (Box.new id v).1).1 = some v)
    ∧ (box_into_inner (Box.new 0 "Hello, World!").1).1 = some "Hello, World!"
    ∧ (box_into_inner (Box.new 0 [1, 2, 3, 4, 5]).1).1 = some [1, 2, 3, 4, 5] :=
  ⟨fun _ _ _ => rfl, rfl, rfl⟩

/-- C2: extraction runs zero destructor invocations for the contained
value, and across extraction plus the later drop of the returned value the
destructor fires exactly once in total. -/
theorem box_into_inner_no_destructor :
    ∀ (T : Type) (b : Box T),
      countDropT (box_into_inner b).2 = 0
      ∧ ∀ v, (box_into_inner b).1 = some v →
          countDropT ((box_into_inner b).2 ++ dropValue v) = 1 :=
  fun _ _ => ⟨rfl, fun _ _ => rfl⟩

/-- Witness for C2 at a concrete input. -/
theorem box_into_inner_no_destructor_witness :
    countDropT (box_into_inner (⟨0, (7 : Nat)⟩ : Box Nat)).2 = 0
    ∧ countDropT ((box_into_inner (⟨0, (7 : Nat)⟩ : Box Nat)).2
        ++ dropValue (7 : Nat)) = 1 :=
  ⟨(box_into_inner_no_destructor Nat ⟨0, 7⟩).1,
   (box_into_inner_no_destructor Nat ⟨0, 7⟩).2 7 rfl⟩

/-- C3: error-free operation — extraction never takes a failing path: for
every input box the returned value is `some` (never the `none` that would
model a failed/undefined read), so no error surfaces to the caller. -/
theorem box_into_inner_error_free :
    ∀ (T : Type) (b : Box T), ∃ v : T, (box_into_inner b).1 = some v :=
  fun _ b => ⟨b.val, rfl⟩

/-- C4: delegation equivalence — the trait method `into_inner` on `Box<T>`
returns exactly what `box_into_inner` returns, and its associated `Inner`
type for `Box<T>` is `T`. -/
theorem into_inner_delegates :
    (∀ (T : Type) (b : Box T), IntoInner.into_inner b = box_into_inner b)
    ∧ ∀ (T : Type), IntoInner.Inner (Box T) = T :=
  ⟨fun _ _ => rfl, fun _ => rfl⟩

/-- C5: exactly-once deallocation — every extraction call emits exactly
one allocator free (that of the input box's own backing allocation), and a
loop of `n` allocate/extract/drop cycles performs `n` allocations and `n`
deallocations, so memory usage does not grow. -/
theorem box_into_inner_dealloc_once :
    (∀ (T : Type) (b : Box T),
      (box_into_inner b).2 = [Event.dealloc b.alloc]
      ∧ countDeallocEvents (box_into_inner b).2 = 1)
    ∧ ∀ (T : Type) (v : T) (n : Nat),
        countAllocEvents (cyclesTrace v n) = n
        ∧ countDeallocEvents (cyclesTrace v n) = n := by
  refine ⟨fun _ _ => ⟨rfl, rfl⟩, fun T v n => ?_⟩
  induction n with
  | zero => exact ⟨rfl, rfl⟩
  | succ n ih =>
      refine ⟨?_, ?_⟩
      · show countAllocEvents (cyclesTrace v n ++ extractCycle n v) = n + 1
        rw [countAllocEvents, List.countP_append, ← countAllocEvents, ih.1]
        rfl
      · show countDeallocEvents (cyclesTrace v n ++ extractCycle n v) = n + 1
        rw [countDeallocEvents, List.countP_append, ← countDeallocEvents, ih.2]
        rfl

/-- C6: algorithm shape — `box_into_inner` is exactly the transmute of the
box to the maybe-uninitialized view followed by `assume_init_read` of that
slot and the quiet drop of the reinterpreted box, and the asserted read
always succeeds (no failure path). -/
theorem box_into_inner_shape :
    ∀ (T : Type) (b : Box T),
      box_into_inner b
        = ((transmuteBoxUninit b).val.assume_init_read,
           dropBoxUninit (transmuteBoxUninit b))
      ∧ (transmuteBoxUninit b).val.assume_init_read = some b.val :=
  fun _ _ => ⟨rfl, rfl⟩

/-- C7: determinism — extraction is a pure value transformation: two calls
on boxes holding equal values return equal values. -/
theorem box_into_inner_deterministic :
    ∀ (T : Type) (b₁ b₂ : Box T), b₁.val = b₂.val →
      (box_into_inner b₁).1 = (box_into_inner b₂).1 :=
  fun _ _ _ h => by
    show some _ = some _
    rw [h]

/-- Witness for C7 at concrete equal-valued boxes. -/
theorem box_into_inner_deterministic_witness :
    (box_into_inner (⟨0, (3 : Nat)⟩ : Box Nat)).1
      = (box_into_inner (⟨1, (3 : Nat)⟩ : Box Nat)).1 :=
  box_into_inner_deterministic Nat ⟨0, 3⟩ ⟨1, 3⟩ rfl

/-- C8: single-transition state machine — the boxed state steps exactly to
the extracted state holding the contained value, the extracted state has
no outgoing transition, and no two consecutive transitions exist (no
cycles, no use after extraction). -/
theorem stepBox_single_transition :
    ∀ (T : Type) (b : Box T) (v : T),
      stepBox (BoxState.boxed b) = some (BoxState.extracted b.val)
      ∧ stepBox (BoxState.extracted v) = none
      ∧ ∀ s s' : BoxState T, stepBox s = some s' → stepBox s' = none := by
  intro T b v
  refine ⟨rfl, rfl, fun s s' h => ?_⟩
  cases s with
  | boxed b' =>
      have : some (BoxState.extracted b'.val) = some s' := h
      cases this
      rfl
  | extracted w => cases h

/-- Witness for C8 at a concrete state. -/
theorem stepBox_single_transition_witness :
    stepBox (BoxState.boxed (⟨0, (5 : Nat)⟩ : Box Nat))
      = some (BoxState.extracted 5)
    ∧ stepBox (BoxState.extracted (5 : Nat)) = none
    ∧ stepBox (BoxState.extracted (5 : Nat)) = none :=
  ⟨(stepBox_single_transition Nat ⟨0, 5⟩ 5).1,
   (stepBox_single_transition Nat ⟨0, 5⟩ 5).2.1,
   (stepBox_single_transition Nat ⟨0, 5⟩ 5).2.2
     (BoxState.boxed ⟨0, 5⟩) (BoxState.extracted 5) rfl⟩

/-- C9: totality — on every box of every type, including the zero-sized
unit type, extraction terminates with the contained value, never `none`
(the modelled panic/undefined path). -/
theorem box_into_inner_total :
    (∀ (T : Type) (b : Box T), (box_into_inner b).1 = some b.val)
    ∧ (box_into_inner (⟨0, ()⟩ : Box Unit)).1 = some () :=
  ⟨fun _ _ => rfl, rfl⟩

/-- C10: composition on nested boxes — extracting an outer box yields the
inner box unchanged, and extracting twice from a doubly-boxed value
returns the original value. -/
theorem box_into_inner_nested :
    ∀ (T : Type) (bb : Box (Box T)),
      (box_into_inner bb).1 = some bb.val
      ∧ ((box_into_inner bb).1.bind fun ib => (box_into_inner ib).1)
          = some bb.val.val :=
  fun _ _ => ⟨rfl, rfl⟩

end BoxIntoInner
